import Mathlib

/-!
Shallow embedding of the EACC marketplace MCP server's job aggregation and
filtering engine (src/index.ts), together with theorems settling the frozen
claims about it.

The DataSource collaborator (the `EACCClient` of the source) is modelled as a
ledger of jobs plus fault schedules for its three methods: `getJobsLength`,
`getJobs(start, end)` (half-open) and `getJob(id)`.  A fault is the message of
the transport-level error the method throws; per the spec this is the sole
expected fault mode of the collaborator.  JavaScript truthiness of optional
fields (`job.x ? ... : ...`, `job.x || ...`) is modelled explicitly: absent, the
empty string, and a zero timestamp are falsy.
-/

namespace EaccMcp

/-- A job record as returned by the marketplace job list (`getJobs`).  Any
field other than the ledger index `id` may be absent. -/
structure Job where
  id : Nat
  escrowId : Option Nat
  title : Option String
  description : Option String
  tags : Option (List String)
  status : Option String
  paymentAmount : Option String
  timestamp : Option Nat
deriving DecidableEq

/-- The record shape returned by `getJob(id)` in the source (title, content
hash, amount, state, roles, timestamp). -/
structure JobDetail where
  title : Option String
  contentHash : Option String
  amount : Option String
  state : Option String
  creator : Option String
  worker : Option String
  timestamp : Option Nat
deriving DecidableEq

/-- The DataSource collaborator: an append-only ledger, a detail lookup, and a
fault schedule per method (`some msg` = the call throws with message `msg`). -/
structure DataSource where
  ledger : List Job
  details : Nat → Option JobDetail
  countFault : Option String
  rangeFault : Nat → Nat → Option String
  byIdFault : Nat → Option String

/-- `getJobsLength()`: the ledger total, or a thrown fault. -/
def DataSource.getJobsLength (ds : DataSource) : Except String Nat :=
  match ds.countFault with
  | some m => Except.error m
  | none => Except.ok ds.ledger.length

/-- `getJobs(start, end)`: the jobs of the half-open ledger window
`[start, end)`, or a thrown fault. -/
def DataSource.getJobs (ds : DataSource) (start e : Nat) : Except String (List Job) :=
  match ds.rangeFault start e with
  | some m => Except.error m
  | none => Except.ok ((ds.ledger.drop start).take (e - start))

/-- `getJob(id)`: the job detail record, `none` when the id is unknown, or a
thrown fault. -/
def DataSource.getJob (ds : DataSource) (jobId : Nat) : Except String (Option JobDetail) :=
  match ds.byIdFault jobId with
  | some m => Except.error m
  | none => Except.ok (ds.details jobId)

/-- The single text payload every tool call returns. -/
structure ToolResult where
  text : String
deriving DecidableEq

/-- The fixed chunk size of the search scan (`const batchSize = 20`). -/
def batchSize : Nat := 20

/-- JavaScript `s.toLowerCase()`, as a character-wise map (computable by the
kernel, unlike `String.toLower`'s byte-position recursion, and equal to it). -/
def jsToLower (s : String) : String :=
  String.mk (s.data.map Char.toLower)

/-- JavaScript truthiness of an optional string: absent and `""` are falsy. -/
def optTruthy : Option String → Bool
  | none => false
  | some s => !(s == "")

/-- `status && status !== 'all'`: whether the status filter is applied. -/
def statusFilterActive : Option String → Bool
  | none => false
  | some s => !(s == "") && !(s == "all")

/-- `category` truthiness: whether the category filter is applied. -/
def categoryFilterActive : Option String → Bool
  | none => false
  | some c => !(c == "")

/-- `job.status?.toLowerCase() === status.toLowerCase()`: a job with an absent
status never matches. -/
def statusPred (st : Option String) (job : Job) : Bool :=
  match st, job.status with
  | some s, some js => jsToLower js == jsToLower s
  | _, _ => false

/-- `hay.includes(needle)` on lists of characters: prefix test. -/
def charsPrefixOf : List Char → List Char → Bool
  | [], _ => true
  | _ :: _, [] => false
  | a :: as, b :: bs => a == b && charsPrefixOf as bs

/-- `hay.includes(needle)` on lists of characters: substring test. -/
def charsInfixOf (needle : List Char) : List Char → Bool
  | [] => needle.isEmpty
  | b :: bs => charsPrefixOf needle (b :: bs) || charsInfixOf needle bs

/-- JavaScript `hay.includes(needle)`. -/
def strIncludes (hay needle : String) : Bool :=
  charsInfixOf needle.toList hay.toList

/-- The category predicate of `searchJobs`: the filter string (lowercased) is
a substring of the title, of the description, or of some tag; absent fields do
not match. -/
def categoryPred (cat : Option String) (job : Job) : Bool :=
  match cat with
  | none => false
  | some c =>
    (match job.title with
     | some t => strIncludes (jsToLower t) (jsToLower c)
     | none => false) ||
    (match job.description with
     | some d => strIncludes (jsToLower d) (jsToLower c)
     | none => false) ||
    (match job.tags with
     | some tags => tags.any (fun tag => strIncludes (jsToLower tag) (jsToLower c))
     | none => false)

/-- The status-filter pass of `searchJobs` (`if (status && status !== 'all')
filteredJobs = filteredJobs.filter(...)`). -/
def statusFilterStep (st : Option String) (jobs : List Job) : List Job :=
  if statusFilterActive st then jobs.filter (statusPred st) else jobs

/-- The category-filter pass of `searchJobs` (`if (category) filteredJobs =
filteredJobs.filter(...)`). -/
def categoryFilterStep (cat : Option String) (jobs : List Job) : List Job :=
  if categoryFilterActive cat then jobs.filter (categoryPred cat) else jobs

/-- Both filter passes of `searchJobs`, status first then category. -/
def filterJobs (st cat : Option String) (jobs : List Job) : List Job :=
  categoryFilterStep cat (statusFilterStep st jobs)

/-- The chunked fetch loop of `searchJobs`:
`for (start = 0; start < maxJobsToFetch && allJobs.length < limit; start += batchSize)`,
each chunk fetched independently, a failing chunk skipped.  The loop advances
`start` by `batchSize ≥ 1` per iteration, so `maxJobsToFetch + 1` units of fuel
always outlast it; fuel only makes the recursion structural. -/
def fetchLoop (ds : DataSource) (limit maxJobsToFetch : Nat) :
    Nat → Nat → List Job → List Job
  | 0, _, allJobs => allJobs
  | fuel + 1, start, allJobs =>
    if start < maxJobsToFetch ∧ allJobs.length < limit then
      let e := min (start + batchSize) maxJobsToFetch
      match ds.getJobs start e with
      | Except.error _ => fetchLoop ds limit maxJobsToFetch fuel (start + batchSize) allJobs
      | Except.ok batch => fetchLoop ds limit maxJobsToFetch fuel (start + batchSize) (allJobs ++ batch)
    else allJobs

/-- `Math.min(totalJobs, limit * 3)`: the scan bound of `searchJobs`. -/
def maxJobsToFetch (ds : DataSource) (limit : Nat) : Nat :=
  min ds.ledger.length (limit * 3)

/-- The raw jobs `searchJobs` accumulates before filtering. -/
def searchJobsFetched (ds : DataSource) (limit : Nat) : List Job :=
  fetchLoop ds limit (maxJobsToFetch ds limit) (maxJobsToFetch ds limit + 1) 0 []

/-- `filteredJobs.slice(0, limit)`: the job list `searchJobs` renders. -/
def searchJobsResultJobs (ds : DataSource) (st cat : Option String) (limit : Nat) : List Job :=
  (filterJobs st cat (searchJobsFetched ds limit)).take limit

/-- `job.title || 'Untitled'`: absent or empty titles render as the
placeholder. -/
def titleOrUntitled : Option String → String
  | none => "Untitled"
  | some t => if t == "" then "Untitled" else t

/-- `job.status ? ` - ${job.status}` : ''`. -/
def statusSegment : Option String → String
  | none => ""
  | some s => if s == "" then "" else " - " ++ s

/-- `job.paymentAmount ? ` - ${job.paymentAmount} ETH` : ''`.  The
decimal-like amount is carried as its rendered string. -/
def paymentSegment : Option String → String
  | none => ""
  | some p => if p == "" then "" else " - " ++ p ++ " ETH"

/-- Abstraction of `new Date(ts * 1000).toLocaleString()`: the exact text is
locale-dependent; only its presence matters to the properties proved here. -/
def localeTimeString (ts : Nat) : String :=
  toString ts

/-- `job.timestamp ? ` - ${...toLocaleString()}` : ''` (a zero timestamp is
falsy). -/
def timeSegment : Option Nat → String
  | none => ""
  | some ts => if ts == 0 then "" else " - " ++ localeTimeString ts

/-- `${job.escrowId}` interpolated directly: an absent field renders as the
JavaScript text `undefined`. -/
def escrowText : Option Nat → String
  | none => "undefined"
  | some e => toString e

/-- One line of the `searchJobs` result list (index is 0-based, the rendered
number 1-based). -/
def searchJobLine (index : Nat) (job : Job) : String :=
  toString (index + 1) ++ ". Job #" ++ toString job.id ++ ": " ++
    titleOrUntitled job.title ++ statusSegment job.status ++ paymentSegment job.paymentAmount

/-- One line of the `getRecentJobs` result list. -/
def recentJobLine (index : Nat) (job : Job) : String :=
  toString (index + 1) ++ ". Escrow ID " ++ escrowText job.escrowId ++ ": " ++
    titleOrUntitled job.title ++ timeSegment job.timestamp

/-- `status || 'any'` / `category || 'any'` in the empty-result message. -/
def orAny : Option String → String
  | none => "any"
  | some s => if s == "" then "any" else s

/-- The text of the non-throwing paths of `searchJobs` (the part after
`getJobsLength()` succeeded). -/
def searchJobsOkText (ds : DataSource) (st cat : Option String) (limit : Nat) : String :=
  let totalJobs := ds.ledger.length
  if totalJobs == 0 then "No jobs found on the marketplace."
  else
    let jobs := searchJobsResultJobs ds st cat limit
    if jobs.length == 0 then
      if optTruthy st || optTruthy cat then
        "No jobs found matching your criteria (status: " ++ orAny st ++
          ", category: " ++ orAny cat ++ ")."
      else "No jobs found."
    else
      let jobList := String.intercalate ("\n") (jobs.mapIdx (fun i j => searchJobLine i j))
      let filterSummary :=
        (match st with
         | some s => if statusFilterActive (some s) then ["status: " ++ s] else []
         | none => []) ++
        (match cat with
         | some c => if c == "" then [] else ["category: " ++ c]
         | none => [])
      let filterText :=
        if filterSummary.length == 0 then ""
        else " (filtered by " ++ String.intercalate (", ") filterSummary ++ ")"
      "Found " ++ toString jobs.length ++ " of " ++ toString totalJobs ++
        " total jobs" ++ filterText ++ ":\n\n" ++ jobList

/-- The `searchJobs` operation up to its boundary catch: only the
`getJobsLength()` call can propagate a fault (chunk faults are caught inside
the loop). -/
def searchJobsBody (ds : DataSource) (st cat : Option String) (limit : Nat) :
    Except String String :=
  match ds.getJobsLength with
  | Except.error m => Except.error m
  | Except.ok _ => Except.ok (searchJobsOkText ds st cat limit)

/-- The full `searchJobs` tool operation with its boundary catch. -/
def searchJobs (ds : DataSource) (st cat : Option String) (limit : Nat) : ToolResult :=
  match searchJobsBody ds st cat limit with
  | Except.ok t => ToolResult.mk t
  | Except.error m => ToolResult.mk ("Failed to search jobs: " ++ m)

/-- The `getJobCount` operation up to its boundary catch. -/
def getJobCountBody (ds : DataSource) : Except String String :=
  match ds.getJobsLength with
  | Except.error m => Except.error m
  | Except.ok count =>
    Except.ok ("There are currently " ++ toString count ++ " jobs on the EACC marketplace.")

/-- The full `getJobCount` tool operation with its boundary catch. -/
def getJobCount (ds : DataSource) : ToolResult :=
  match getJobCountBody ds with
  | Except.ok t => ToolResult.mk t
  | Except.error m => ToolResult.mk ("Failed to get job count: " ++ m)

/-- The job list `getRecentJobs` renders when its single range fetch succeeds:
the window `[max(0, total - limit), total)` of the ledger, reversed.  `Nat`
subtraction truncates at zero exactly like `Math.max(0, total - limit)`. -/
def getRecentJobsJobs (ds : DataSource) (limit : Nat) : List Job :=
  let totalJobs := ds.ledger.length
  let startIndex := totalJobs - limit
  ((ds.ledger.drop startIndex).take (totalJobs - startIndex)).reverse

/-- The success text of `getRecentJobs` for a non-empty job list. -/
def recentJobsListText (sortedJobs : List Job) : String :=
  let jobList := String.intercalate ("\n") (sortedJobs.mapIdx (fun i j => recentJobLine i j))
  "Most recent jobs (" ++ toString sortedJobs.length ++ " found):\n\n" ++ jobList

/-- The `getRecentJobs` operation up to its boundary catch. -/
def getRecentJobsBody (ds : DataSource) (limit : Nat) : Except String String :=
  match ds.getJobsLength with
  | Except.error m => Except.error m
  | Except.ok totalJobs =>
    if totalJobs == 0 then Except.ok ("No jobs found on the marketplace.")
    else
      let startIndex := totalJobs - limit
      match ds.getJobs startIndex totalJobs with
      | Except.error m => Except.error m
      | Except.ok recentJobs =>
        let sortedJobs := recentJobs.reverse
        if sortedJobs.length == 0 then Except.ok ("No recent jobs found.")
        else Except.ok (recentJobsListText sortedJobs)

/-- The full `getRecentJobs` tool operation with its boundary catch. -/
def getRecentJobs (ds : DataSource) (limit : Nat) : ToolResult :=
  match getRecentJobsBody ds limit with
  | Except.ok t => ToolResult.mk t
  | Except.error m => ToolResult.mk ("Failed to get recent jobs: " ++ m)

/-- The detail block `getJobDetails` renders for a found job. -/
def jobDetailsText (jobId : Nat) (job : JobDetail) : String :=
  let orElse : Option String → String → String := fun v d =>
    match v with
    | none => d
    | some s => if s == "" then d else s
  let workerLine :=
    match job.worker with
    | none => ""
    | some w => if w == "" then "" else "Worker: " ++ w
  let created :=
    match job.timestamp with
    | none => "Unknown"
    | some ts => if ts == 0 then "Unknown" else localeTimeString ts
  "Job #" ++ toString jobId ++ " Details:\n" ++
    "Title: " ++ orElse job.title ("Untitled") ++ "\n" ++
    "Content hash: " ++ orElse job.contentHash ("No content available") ++ "\n" ++
    "Payment: " ++ orElse job.amount ("TBD") ++ "\n" ++
    "Status: " ++ orElse job.state ("Unknown") ++ "\n" ++
    "Owner: " ++ orElse job.creator ("Unknown") ++ "\n" ++
    workerLine ++ "\n" ++
    "Created: " ++ created

/-- The `getJobDetails` operation up to its boundary catch. -/
def getJobDetailsBody (ds : DataSource) (jobId : Nat) : Except String String :=
  match ds.getJob jobId with
  | Except.error m => Except.error m
  | Except.ok none => Except.ok ("Job #" ++ toString jobId ++ " not found.")
  | Except.ok (some job) => Except.ok (jobDetailsText jobId job)

/-- The full `getJobDetails` tool operation with its boundary catch. -/
def getJobDetails (ds : DataSource) (jobId : Nat) : ToolResult :=
  match getJobDetailsBody ds jobId with
  | Except.ok t => ToolResult.mk t
  | Except.error m => ToolResult.mk ("Failed to get job details: " ++ m)

/-- The chunk windows the fetch loop of `searchJobs` attempts, in order.  It
threads the same accumulated pre-filter count the loop's guard reads, so a
window appears here exactly when the loop attempts a fetch for it. -/
def scanWindows (ds : DataSource) (limit maxFetch : Nat) :
    Nat → Nat → Nat → List (Nat × Nat)
  | 0, _, _ => []
  | fuel + 1, start, accLen =>
    if start < maxFetch ∧ accLen < limit then
      let e := min (start + batchSize) maxFetch
      let accLen' :=
        match ds.getJobs start e with
        | Except.error _ => accLen
        | Except.ok batch => accLen + batch.length
      (start, e) :: scanWindows ds limit maxFetch fuel (start + batchSize) accLen'
    else []

/-- The windows attempted by the scan of `searchJobs ds _ _ limit`. -/
def searchScanWindows (ds : DataSource) (limit : Nat) : List (Nat × Nat) :=
  scanWindows ds limit (maxJobsToFetch ds limit) (maxJobsToFetch ds limit + 1) 0 0

/-- The ledger jobs of one chunk window. -/
def windowJobs (ds : DataSource) (w : Nat × Nat) : List Job :=
  (ds.ledger.drop w.1).take (w.2 - w.1)

/-- Whether the fetch of a chunk window succeeds. -/
def windowOk (ds : DataSource) (w : Nat × Nat) : Bool :=
  (ds.rangeFault w.1 w.2).isNone

/-- Modelled from the spec's words for claim C2's comparison: the same chunked
loop, except that its early-stop guard counts accumulated post-filter matches
(`limit post-filter matches accumulated`) instead of the fetched jobs. -/
def fetchLoopSpecC2 (ds : DataSource) (st cat : Option String) (limit maxFetch : Nat) :
    Nat → Nat → List Job → List Job
  | 0, _, allJobs => allJobs
  | fuel + 1, start, allJobs =>
    if start < maxFetch ∧ (filterJobs st cat allJobs).length < limit then
      let e := min (start + batchSize) maxFetch
      match ds.getJobs start e with
      | Except.error _ => fetchLoopSpecC2 ds st cat limit maxFetch fuel (start + batchSize) allJobs
      | Except.ok batch =>
        fetchLoopSpecC2 ds st cat limit maxFetch fuel (start + batchSize) (allJobs ++ batch)
    else allJobs

/-- Modelled from the spec's words for claim C2's comparison: the result list
under the post-filter early-stop loop. -/
def searchJobsSpecC2Jobs (ds : DataSource) (st cat : Option String) (limit : Nat) : List Job :=
  (filterJobs st cat
    (fetchLoopSpecC2 ds st cat limit (maxJobsToFetch ds limit)
      (maxJobsToFetch ds limit + 1) 0 [])).take limit

/-! Concrete fixtures used by counterexamples and witnesses. -/

/-- A job with every optional field absent. -/
def plainJob (i : Nat) : Job :=
  Job.mk i none none none none none none none

/-- A job with only a status. -/
def statusJob (i : Nat) (s : String) : Job :=
  Job.mk i none none none none (some s) none none

/-- A detail lookup with no records. -/
def noDetails : Nat → Option JobDetail := fun _ => none

/-- A range-fault schedule with no faults. -/
def noRangeFaults : Nat → Nat → Option String := fun _ _ => none

/-- A by-id fault schedule with no faults. -/
def noByIdFaults : Nat → Option String := fun _ => none

/-- An empty ledger. -/
def dsEmpty : DataSource :=
  DataSource.mk [] noDetails none noRangeFaults noByIdFaults

/-- The spec's worked example: five jobs with statuses open, closed, open,
open, taken. -/
def ds5 : DataSource :=
  DataSource.mk
    [statusJob 0 ("open"), statusJob 1 ("closed"), statusJob 2 ("open"),
     statusJob 3 ("open"), statusJob 4 ("taken")]
    noDetails none noRangeFaults noByIdFaults

/-- Forty jobs: indices 0–19 closed, 20–39 open.  With `limit = 10` the scan
bound is 30 but the first chunk alone already accumulates 20 ≥ 10 raw jobs. -/
def ds40 : DataSource :=
  DataSource.mk
    ((List.range 40).map (fun i => statusJob i (if i < 20 then "closed" else "open")))
    noDetails none noRangeFaults noByIdFaults

/-- The ledger of `ds40` with the fetch of the first chunk window failing. -/
def ds40bad : DataSource :=
  DataSource.mk
    ((List.range 40).map (fun i => statusJob i (if i < 20 then "closed" else "open")))
    noDetails none (fun s _ => if s == 0 then some ("boom") else none) noByIdFaults

/-! Structural lemmas about the chunked fetch loop. -/

/-- The fetch loop accumulates exactly the contents of the successfully
fetched windows among the windows it attempts, in scan order. -/
theorem fetchLoop_eq_scanWindows (ds : DataSource) (limit maxFetch : Nat) :
    ∀ (fuel start : Nat) (allJobs : List Job),
      fetchLoop ds limit maxFetch fuel start allJobs
        = allJobs ++
          (((scanWindows ds limit maxFetch fuel start allJobs.length).filter
              (fun w => windowOk ds w)).map (fun w => windowJobs ds w)).flatten := by
  intro fuel
  induction fuel with
  | zero => intro start allJobs; simp [fetchLoop, scanWindows]
  | succ n ih =>
    intro start allJobs
    by_cases h : start < maxFetch ∧ allJobs.length < limit
    · rcases hr : ds.rangeFault start (min (start + batchSize) maxFetch) with _ | m
      · simp only [fetchLoop, scanWindows, if_pos h, DataSource.getJobs, hr]
        rw [ih (start + batchSize)
          (allJobs ++ (ds.ledger.drop start).take (min (start + batchSize) maxFetch - start))]
        simp [windowJobs, windowOk, hr, List.length_append, List.append_assoc]
      · simp only [fetchLoop, scanWindows, if_pos h, DataSource.getJobs, hr]
        rw [ih (start + batchSize) allJobs]
        simp [windowOk, hr]
    · simp [fetchLoop, scanWindows, if_neg h]

/-- Whatever chunks fail, the fetch loop only ever appends jobs drawn, in
order, from the ledger at or after its current position. -/
theorem fetchLoop_sublist (ds : DataSource) (limit maxFetch : Nat) :
    ∀ (fuel start : Nat) (allJobs : List Job),
      ∃ L, fetchLoop ds limit maxFetch fuel start allJobs = allJobs ++ L
        ∧ L.Sublist (ds.ledger.drop start) := by
  intro fuel
  induction fuel with
  | zero => intro start allJobs; exact ⟨[], by simp [fetchLoop]⟩
  | succ n ih =>
    intro start allJobs
    by_cases h : start < maxFetch ∧ allJobs.length < limit
    · rcases hr : ds.rangeFault start (min (start + batchSize) maxFetch) with _ | m
      · obtain ⟨L, hL, hs⟩ :=
          ih (start + batchSize)
            (allJobs ++ (ds.ledger.drop start).take (min (start + batchSize) maxFetch - start))
        refine ⟨(ds.ledger.drop start).take (min (start + batchSize) maxFetch - start) ++ L, ?_, ?_⟩
        · simp only [fetchLoop, if_pos h, DataSource.getJobs, hr]
          rw [hL, List.append_assoc]
        · have hk : min (start + batchSize) maxFetch - start ≤ batchSize := by
            have h2 : min (start + batchSize) maxFetch ≤ start + batchSize :=
              min_le_left _ _
            exact tsub_le_iff_left.mpr h2
          have h20 : ds.ledger.drop (start + batchSize)
              = (ds.ledger.drop start).drop batchSize := by
            rw [List.drop_drop]
          have hsd : L.Sublist ((ds.ledger.drop start).drop
              (min (start + batchSize) maxFetch - start)) := by
            refine hs.trans ?_
            rw [h20]
            have h3 : (ds.ledger.drop start).drop batchSize
                = (((ds.ledger.drop start).drop
                    (min (start + batchSize) maxFetch - start))).drop
                    (batchSize - (min (start + batchSize) maxFetch - start)) := by
              conv_rhs => rw [List.drop_drop]
              rw [Nat.add_sub_cancel' hk]
            rw [h3]
            exact List.drop_sublist _ _
          have h1 :=
            List.Sublist.append
              (List.Sublist.refl
                ((ds.ledger.drop start).take (min (start + batchSize) maxFetch - start))) hsd
          rw [List.take_append_drop] at h1
          exact h1
      · obtain ⟨L, hL, hs⟩ := ih (start + batchSize) allJobs
        refine ⟨L, ?_, ?_⟩
        · simp only [fetchLoop, if_pos h, DataSource.getJobs, hr]
          exact hL
        · refine hs.trans ?_
          rw [show ds.ledger.drop (start + batchSize)
              = (ds.ledger.drop start).drop batchSize from by rw [List.drop_drop]]
          exact List.drop_sublist _ _
    · exact ⟨[], by simp [fetchLoop, if_neg h]⟩

/-- Every window the scan attempts starts below the scan bound, at a multiple
of the chunk size, and ends at `min(start + batchSize, bound)`. -/
theorem scanWindows_shape (ds : DataSource) (limit maxFetch : Nat) :
    ∀ (fuel start accLen : Nat), start % batchSize = 0 →
      ∀ w ∈ scanWindows ds limit maxFetch fuel start accLen,
        w.2 = min (w.1 + batchSize) maxFetch ∧ w.1 < maxFetch ∧ w.1 % batchSize = 0 := by
  intro fuel
  induction fuel with
  | zero => intro start accLen _ w hw; simp [scanWindows] at hw
  | succ n ih =>
    intro start accLen hmod w hw
    by_cases h : start < maxFetch ∧ accLen < limit
    · rw [scanWindows, if_pos h] at hw
      rcases List.mem_cons.mp hw with hw | hw
      · subst hw
        exact ⟨rfl, h.1, hmod⟩
      · exact ih (start + batchSize) _ (by rw [Nat.add_mod_right]; exact hmod) w hw
    · rw [scanWindows, if_neg h] at hw
      simp at hw

/-- With no chunk faults the loop fetches exactly a prefix of the ledger,
whose length is dictated by the raw pre-filter count reaching `limit` (or the
bound running out): the generalized loop invariant. -/
theorem fetchLoop_noFault (ds : DataSource) (limit maxFetch : Nat)
    (hM : maxFetch ≤ ds.ledger.length)
    (hf : ∀ s e, ds.rangeFault s e = none) :
    ∀ (fuel start : Nat), start % batchSize = 0 → maxFetch < start + batchSize * fuel →
      fetchLoop ds limit maxFetch fuel start (ds.ledger.take (min start maxFetch))
        = ds.ledger.take
            (if start < maxFetch ∧ start < limit
             then min maxFetch (batchSize * ((limit - 1) / batchSize + 1))
             else min start maxFetch) := by
  intro fuel
  induction fuel with
  | zero =>
    intro start hmod hfuel
    have hge : ¬ start < maxFetch := by omega
    rw [fetchLoop, if_neg (fun hx => hge hx.1)]
  | succ n ih =>
    intro start hmod hfuel
    have hlen : (ds.ledger.take (min start maxFetch)).length = min start maxFetch := by
      rw [List.length_take]
      exact min_eq_left (le_trans (min_le_right _ _) hM)
    by_cases hc : start < maxFetch ∧ start < limit
    · have hmin : min start maxFetch = start := min_eq_left (le_of_lt hc.1)
      have hcond : start < maxFetch ∧ (ds.ledger.take (min start maxFetch)).length < limit := by
        rw [hlen, hmin]
        exact hc
      simp only [fetchLoop, if_pos hcond, DataSource.getJobs, hf]
      have h4 : start ≤ min (start + batchSize) maxFetch := by
        refine le_min ?_ (le_of_lt hc.1)
        have hb : 0 < batchSize := Nat.zero_lt_succ _
        omega
      have hacc : ds.ledger.take (min start maxFetch)
            ++ (ds.ledger.drop start).take (min (start + batchSize) maxFetch - start)
          = ds.ledger.take (min (start + batchSize) maxFetch) := by
        rw [hmin]
        conv_rhs => rw [← Nat.add_sub_cancel' h4]
        rw [List.take_add]
      rw [hacc]
      have hmod' : (start + batchSize) % batchSize = 0 := by
        rw [Nat.add_mod_right]
        exact hmod
      have hfuel' : maxFetch < start + batchSize + batchSize * n := by
        rw [Nat.mul_succ] at hfuel
        omega
      rw [ih (start + batchSize) hmod' hfuel']
      by_cases hc2 : start + batchSize < maxFetch ∧ start + batchSize < limit
      · rw [if_pos hc2, if_pos hc]
      · rw [if_neg hc2, if_pos hc]
        congr 1
        rw [show batchSize = 20 from rfl] at hmod hc2 ⊢
        rw [min_def, min_def]
        rcases not_and_or.mp hc2 with h5 | h5 <;> rcases hc with ⟨hc1, hcl⟩ <;>
          split_ifs <;> omega
    · have hcond : ¬ (start < maxFetch ∧ (ds.ledger.take (min start maxFetch)).length < limit) := by
        rw [hlen]
        intro hx
        have hmin : min start maxFetch = start := min_eq_left (le_of_lt hx.1)
        rw [hmin] at hx
        exact hc hx
      rw [fetchLoop, if_neg hcond, if_neg hc]

/-- With no chunk faults, the raw jobs `searchJobs` accumulates are exactly
the ledger prefix of length `min(bound, batchSize * ceil(limit / batchSize))`:
the scan stops on the raw pre-filter count, never on the filtered count. -/
theorem searchJobsFetched_noFault (ds : DataSource) (limit : Nat)
    (hf : ∀ s e, ds.rangeFault s e = none) (hlim : 0 < limit) :
    searchJobsFetched ds limit
      = ds.ledger.take (min (maxJobsToFetch ds limit)
          (batchSize * ((limit - 1) / batchSize + 1))) := by
  have hM : maxJobsToFetch ds limit ≤ ds.ledger.length := min_le_left _ _
  have h := fetchLoop_noFault ds limit (maxJobsToFetch ds limit) hM hf
      (maxJobsToFetch ds limit + 1) 0 (by simp)
      (by rw [show batchSize = 20 from rfl]; omega)
  simp only [Nat.zero_min, List.take_zero] at h
  show fetchLoop ds limit (maxJobsToFetch ds limit) (maxJobsToFetch ds limit + 1) 0 [] = _
  rw [h]
  by_cases hM0 : 0 < maxJobsToFetch ds limit
  · rw [if_pos ⟨hM0, hlim⟩]
  · rw [if_neg (fun hx => hM0 hx.1)]
    have hz : maxJobsToFetch ds limit = 0 := by omega
    rw [hz]
    simp

/-- Under the hypotheses of claims C3 and C10 — a non-empty ledger, a positive
limit and a fault-free count and range fetch — `getRecentJobs` renders exactly
the reversed fetched window. -/
theorem getRecentJobs_ok (ds : DataSource) (limit : Nat) (hlim : 0 < limit)
    (htot : 1 ≤ ds.ledger.length) (hc : ds.countFault = none)
    (hr : ds.rangeFault (ds.ledger.length - limit) ds.ledger.length = none) :
    getRecentJobs ds limit = ToolResult.mk (recentJobsListText (getRecentJobsJobs ds limit))
    ∧ getRecentJobsJobs ds limit = (ds.ledger.drop (ds.ledger.length - limit)).reverse
    ∧ (getRecentJobsJobs ds limit).length = min limit ds.ledger.length := by
  have hdl : (ds.ledger.drop (ds.ledger.length - limit)).length
      = ds.ledger.length - (ds.ledger.length - limit) := List.length_drop _ _
  have htk : (ds.ledger.drop (ds.ledger.length - limit)).take
        (ds.ledger.length - (ds.ledger.length - limit))
      = ds.ledger.drop (ds.ledger.length - limit) :=
    List.take_of_length_le (le_of_eq hdl)
  have hjobs : getRecentJobsJobs ds limit
      = (ds.ledger.drop (ds.ledger.length - limit)).reverse := by
    show ((ds.ledger.drop (ds.ledger.length - limit)).take
        (ds.ledger.length - (ds.ledger.length - limit))).reverse = _
    rw [htk]
  have hlenjobs : (getRecentJobsJobs ds limit).length = min limit ds.ledger.length := by
    rw [hjobs, List.length_reverse, hdl]
    rcases le_total limit ds.ledger.length with hle | hle
    · rw [min_eq_left hle, Nat.sub_sub_self hle]
    · rw [min_eq_right hle, Nat.sub_eq_zero_of_le hle, Nat.sub_zero]
  refine ⟨?_, hjobs, hlenjobs⟩
  have hne : (ds.ledger.length == 0) = false := by
    simp only [beq_eq_false_iff_ne, ne_eq]
    omega
  have hsorted : (((ds.ledger.drop (ds.ledger.length - limit)).take
      (ds.ledger.length - (ds.ledger.length - limit))).reverse.length == 0) = false := by
    simp only [List.length_reverse, htk, List.length_drop, beq_eq_false_iff_ne, ne_eq]
    omega
  have hbody : getRecentJobsBody ds limit
      = Except.ok (recentJobsListText (getRecentJobsJobs ds limit)) := by
    simp only [getRecentJobsBody, DataSource.getJobsLength, hc, hne, DataSource.getJobs, hr,
      Bool.false_eq_true, if_false, hsorted]
    rfl
  show (match getRecentJobsBody ds limit with
    | Except.ok t => ToolResult.mk t
    | Except.error m => ToolResult.mk ("Failed to get recent jobs: " ++ m)) = _
  rw [hbody]

/-- The raw fetched jobs of a search are a subsequence of the ledger. -/
theorem searchJobsFetched_sublist (ds : DataSource) (limit : Nat) :
    (searchJobsFetched ds limit).Sublist ds.ledger := by
  obtain ⟨L, hL, hs⟩ := fetchLoop_sublist ds limit (maxJobsToFetch ds limit)
    (maxJobsToFetch ds limit + 1) 0 []
  show (fetchLoop ds limit (maxJobsToFetch ds limit)
    (maxJobsToFetch ds limit + 1) 0 []).Sublist _
  rw [hL]
  simpa using hs

/-- Filtering is a sublist operation. -/
theorem filterJobs_sublist (st cat : Option String) (jobs : List Job) :
    (filterJobs st cat jobs).Sublist jobs := by
  unfold filterJobs categoryFilterStep statusFilterStep
  split
  · split
    · exact (List.filter_sublist _).trans (List.filter_sublist _)
    · exact List.filter_sublist _
  · split
    · exact List.filter_sublist _
    · exact List.Sublist.refl _

/-- A member of the filtered list satisfies every active filter. -/
theorem filterJobs_mem (st cat : Option String) (jobs : List Job) (j : Job)
    (hj : j ∈ filterJobs st cat jobs) :
    (statusFilterActive st = true → statusPred st j = true)
    ∧ (categoryFilterActive cat = true → categoryPred cat j = true) := by
  unfold filterJobs categoryFilterStep at hj
  have hstep : j ∈ statusFilterStep st jobs
      ∧ (categoryFilterActive cat = true → categoryPred cat j = true) := by
    by_cases hact : categoryFilterActive cat = true
    · rw [if_pos hact] at hj
      exact ⟨(List.mem_filter.mp hj).1, fun _ => (List.mem_filter.mp hj).2⟩
    · rw [if_neg hact] at hj
      exact ⟨hj, fun hx => absurd hx hact⟩
  refine ⟨?_, hstep.2⟩
  intro hact
  have h1 := hstep.1
  rw [statusFilterStep, if_pos hact] at h1
  exact (List.mem_filter.mp h1).2

/-- C1: for every positive limit and any combination of status/category
filters, `search_jobs` returns at most `limit` jobs, each of which satisfies
every supplied filter, and the returned jobs appear in ledger order: they form
a subsequence of the ledger, so their ledger indices are ascending whenever
the ledger's are. -/
theorem searchJobs_bounded_filtered_ordered (ds : DataSource) (st cat : Option String)
    (limit : Nat) (hlim : 0 < limit) :
    (searchJobsResultJobs ds st cat limit).length ≤ limit
    ∧ (∀ j ∈ searchJobsResultJobs ds st cat limit,
        (statusFilterActive st = true → statusPred st j = true)
        ∧ (categoryFilterActive cat = true → categoryPred cat j = true))
    ∧ (searchJobsResultJobs ds st cat limit).Sublist ds.ledger
    ∧ (ds.ledger.Pairwise (fun a b => a.id < b.id) →
        (searchJobsResultJobs ds st cat limit).Pairwise (fun a b => a.id < b.id)) := by
  have hsub : (searchJobsResultJobs ds st cat limit).Sublist ds.ledger := by
    show ((filterJobs st cat (searchJobsFetched ds limit)).take limit).Sublist ds.ledger
    exact ((List.take_sublist _ _).trans (filterJobs_sublist _ _ _)).trans
      (searchJobsFetched_sublist ds limit)
  refine ⟨?_, ?_, hsub, fun hpw => List.Pairwise.sublist hsub hpw⟩
  · show ((filterJobs st cat (searchJobsFetched ds limit)).take limit).length ≤ limit
    rw [List.length_take]
    exact min_le_left _ _
  · intro j hj
    have hj2 : j ∈ filterJobs st cat (searchJobsFetched ds limit) :=
      List.take_subset _ _ hj
    exact filterJobs_mem st cat _ j hj2

/-- C1 witness at the spec's five-job example ledger with status filter
`open` and limit 3. -/
theorem searchJobs_bounded_filtered_ordered_witness :
    0 < 3
    ∧ ((searchJobsResultJobs ds5 (some ("open")) none 3).length ≤ 3
      ∧ (∀ j ∈ searchJobsResultJobs ds5 (some ("open")) none 3,
          (statusFilterActive (some ("open")) = true → statusPred (some ("open")) j = true)
          ∧ (categoryFilterActive none = true → categoryPred none j = true))
      ∧ (searchJobsResultJobs ds5 (some ("open")) none 3).Sublist ds5.ledger
      ∧ (ds5.ledger.Pairwise (fun a b => a.id < b.id) →
          (searchJobsResultJobs ds5 (some ("open")) none 3).Pairwise (fun a b => a.id < b.id))) :=
  ⟨by decide, searchJobs_bounded_filtered_ordered ds5 (some ("open")) none 3 (by decide)⟩

/-- The fetched raw jobs are the flattened contents of the successfully
fetched windows among the attempted scan windows. -/
theorem searchJobsFetched_eq_windows (ds : DataSource) (limit : Nat) :
    searchJobsFetched ds limit
      = (((searchScanWindows ds limit).filter (fun w => windowOk ds w)).map
          (fun w => windowJobs ds w)).flatten := by
  show fetchLoop ds limit (maxJobsToFetch ds limit) (maxJobsToFetch ds limit + 1) 0 []
      = _
  rw [fetchLoop_eq_scanWindows ds limit (maxJobsToFetch ds limit)
    (maxJobsToFetch ds limit + 1) 0 []]
  simp [searchScanWindows]

/-- C2 counterexample: on a 40-job ledger whose first 20 jobs are closed and
next 20 open, with `limit = 10` and status filter `open`, the code stops after
the first chunk (20 raw jobs ≥ limit) and returns nothing, while the loop the
claim describes — stop only once `limit` post-filter matches accumulated —
would scan on to the bound and return 10 jobs. -/
theorem searchJobs_scan_counterexample :
    searchJobsResultJobs ds40 (some ("open")) none 10 = []
    ∧ searchJobsSpecC2Jobs ds40 (some ("open")) none 10 ≠ []
    ∧ (searchJobsSpecC2Jobs ds40 (some ("open")) none 10).length = 10
    ∧ searchScanWindows ds40 10 = [(0, 20)]
    ∧ maxJobsToFetch ds40 10 = 30 := by decide

/-- C2 (amended): `search_jobs` scans from index 0 in chunks of `batchSize =
20` bounded by `min(total, limit * 3)`; the loop stops once the bound is
reached or the accumulated raw (pre-filter) job count reaches `limit`; the
filters are then applied and the result truncated to `limit`.  With no chunk
faults the scanned prefix length is `min(bound, 20 * ceil(limit / 20))`,
independent of how many jobs pass the filters. -/
theorem searchJobs_scan_structure (ds : DataSource) (st cat : Option String)
    (limit : Nat) :
    searchJobsResultJobs ds st cat limit
      = (filterJobs st cat
          ((((searchScanWindows ds limit).filter (fun w => windowOk ds w)).map
            (fun w => windowJobs ds w)).flatten)).take limit
    ∧ (∀ w ∈ searchScanWindows ds limit,
        w.2 = min (w.1 + batchSize) (maxJobsToFetch ds limit)
        ∧ w.1 < maxJobsToFetch ds limit ∧ w.1 % batchSize = 0)
    ∧ (0 < limit → (∀ s e, ds.rangeFault s e = none) →
        searchJobsFetched ds limit
          = ds.ledger.take (min (maxJobsToFetch ds limit)
              (batchSize * ((limit - 1) / batchSize + 1)))) := by
  refine ⟨?_, ?_, fun hlim hf => searchJobsFetched_noFault ds limit hf hlim⟩
  · show (filterJobs st cat (searchJobsFetched ds limit)).take limit = _
    rw [searchJobsFetched_eq_windows]
  · intro w hw
    exact scanWindows_shape ds limit (maxJobsToFetch ds limit)
      (maxJobsToFetch ds limit + 1) 0 0 (by simp) w hw

/-- C6: when the fetch of exactly one attempted chunk window fails, the
returned jobs are exactly those obtained by filtering the contents of all the
other attempted windows (then truncating to `limit`), and the chunk failure is
not surfaced as an error: the operation body still succeeds with its normal
rendering. -/
theorem searchJobs_one_bad_chunk (ds : DataSource) (st cat : Option String)
    (limit : Nat) (w : Nat × Nat) (m : String)
    (hcount : ds.countFault = none)
    (hw : w ∈ searchScanWindows ds limit)
    (hbad : ds.rangeFault w.1 w.2 = some m)
    (hgood : ∀ w2 ∈ searchScanWindows ds limit, w2 ≠ w → ds.rangeFault w2.1 w2.2 = none) :
    searchJobsResultJobs ds st cat limit
      = (filterJobs st cat
          ((((searchScanWindows ds limit).filter (fun w2 => w2 != w)).map
            (fun w2 => windowJobs ds w2)).flatten)).take limit
    ∧ searchJobsBody ds st cat limit = Except.ok (searchJobsOkText ds st cat limit) := by
  constructor
  · have hfe : (searchScanWindows ds limit).filter (fun w2 => windowOk ds w2)
        = (searchScanWindows ds limit).filter (fun w2 => w2 != w) := by
      apply List.filter_congr
      intro x hx
      by_cases hxw : x = w
      · subst hxw
        simp [windowOk, hbad]
      · simp [windowOk, hgood x hx hxw, bne_iff_ne, hxw]
    show (filterJobs st cat (searchJobsFetched ds limit)).take limit = _
    rw [searchJobsFetched_eq_windows, hfe]
  · simp only [searchJobsBody, DataSource.getJobsLength, hcount]

/-- C6 witness: the 40-job ledger with the first chunk window failing; the
scan attempts windows `(0, 20)` and `(20, 30)` and only the first fails. -/
theorem searchJobs_one_bad_chunk_witness :
    searchJobsResultJobs ds40bad none none 10
      = (filterJobs none none
          ((((searchScanWindows ds40bad 10).filter (fun w2 => w2 != ((0, 20) : Nat × Nat))).map
            (fun w2 => windowJobs ds40bad w2)).flatten)).take 10
    ∧ searchJobsBody ds40bad none none 10
        = Except.ok (searchJobsOkText ds40bad none none 10) :=
  searchJobs_one_bad_chunk ds40bad none none 10 (0, 20) ("boom")
    (by decide) (by decide) (by decide) (by decide)

/-- C3: for every positive limit and non-empty ledger (with the count and the
single range fetch succeeding), `get_recent_jobs` fetches exactly the window
`[max(0, total - limit), total)` and returns it reversed: the rendered jobs
are ordered by descending ledger index, the element at position `k` being the
ledger entry at index `total - 1 - k`; in particular the first element is the
job at index `total - 1`. -/
theorem getRecentJobs_descending (ds : DataSource) (limit : Nat)
    (hlim : 0 < limit) (htot : 1 ≤ ds.ledger.length)
    (hc : ds.countFault = none)
    (hr : ds.rangeFault (ds.ledger.length - limit) ds.ledger.length = none) :
    getRecentJobs ds limit = ToolResult.mk (recentJobsListText (getRecentJobsJobs ds limit))
    ∧ getRecentJobsJobs ds limit
        = ((ds.ledger.drop (ds.ledger.length - limit)).take
            (ds.ledger.length - (ds.ledger.length - limit))).reverse
    ∧ (getRecentJobsJobs ds limit)[0]? = ds.ledger[ds.ledger.length - 1]?
    ∧ (∀ k, k < (getRecentJobsJobs ds limit).length →
        (getRecentJobsJobs ds limit)[k]? = ds.ledger[ds.ledger.length - 1 - k]?) := by
  obtain ⟨h1, h2, h3⟩ := getRecentJobs_ok ds limit hlim htot hc hr
  have hk : ∀ k, k < (getRecentJobsJobs ds limit).length →
      (getRecentJobsJobs ds limit)[k]? = ds.ledger[ds.ledger.length - 1 - k]? := by
    intro k hklt
    rw [h2] at hklt ⊢
    rw [List.length_reverse, List.length_drop] at hklt
    rw [List.getElem?_reverse (by rw [List.length_drop]; omega)]
    rw [List.length_drop, List.getElem?_drop]
    congr 1
    omega
  have h0 : 0 < (getRecentJobsJobs ds limit).length := by
    rw [h3]
    omega
  refine ⟨h1, rfl, ?_, hk⟩
  rw [hk 0 h0, Nat.sub_zero]

/-- C3 witness at the five-job ledger with limit 2. -/
theorem getRecentJobs_descending_witness :
    getRecentJobs ds5 2 = ToolResult.mk (recentJobsListText (getRecentJobsJobs ds5 2))
    ∧ getRecentJobsJobs ds5 2
        = ((ds5.ledger.drop (ds5.ledger.length - 2)).take
            (ds5.ledger.length - (ds5.ledger.length - 2))).reverse
    ∧ (getRecentJobsJobs ds5 2)[0]? = ds5.ledger[ds5.ledger.length - 1]?
    ∧ (∀ k, k < (getRecentJobsJobs ds5 2).length →
        (getRecentJobsJobs ds5 2)[k]? = ds5.ledger[ds5.ledger.length - 1 - k]?) :=
  getRecentJobs_descending ds5 2 (by decide) (by decide) (by decide) (by decide)

/-- C10: under the same hypotheses, the single fetched window has exactly
`min(limit, total)` indices and the result is not truncated further, so
`get_recent_jobs` returns exactly `min(limit, total)` jobs. -/
theorem getRecentJobs_length_min (ds : DataSource) (limit : Nat)
    (hlim : 0 < limit) (htot : 1 ≤ ds.ledger.length)
    (hc : ds.countFault = none)
    (hr : ds.rangeFault (ds.ledger.length - limit) ds.ledger.length = none) :
    (getRecentJobsJobs ds limit).length = min limit ds.ledger.length
    ∧ getRecentJobs ds limit
        = ToolResult.mk (recentJobsListText (getRecentJobsJobs ds limit)) := by
  obtain ⟨h1, _, h3⟩ := getRecentJobs_ok ds limit hlim htot hc hr
  exact ⟨h3, h1⟩

/-- C10 witness at the five-job ledger with limit 7 > total, returning all 5
jobs. -/
theorem getRecentJobs_length_min_witness :
    (getRecentJobsJobs ds5 7).length = min 7 ds5.ledger.length
    ∧ getRecentJobs ds5 7
        = ToolResult.mk (recentJobsListText (getRecentJobsJobs ds5 7)) :=
  getRecentJobs_length_min ds5 7 (by decide) (by decide) (by decide) (by decide)

/-- C4: every fault the DataSource raises during an operation is caught at
that operation's boundary and rendered as a single text payload beginning
`Failed to <operation>: <message>`; no operation propagates the fault. -/
theorem toolFaults_rendered (ds : DataSource) (st cat : Option String)
    (limit jobId : Nat) (m : String) :
    (ds.countFault = some m →
      getJobCount ds = ToolResult.mk ("Failed to get job count: " ++ m)
      ∧ searchJobs ds st cat limit = ToolResult.mk ("Failed to search jobs: " ++ m)
      ∧ getRecentJobs ds limit = ToolResult.mk ("Failed to get recent jobs: " ++ m))
    ∧ (ds.byIdFault jobId = some m →
        getJobDetails ds jobId = ToolResult.mk ("Failed to get job details: " ++ m))
    ∧ (ds.countFault = none → 1 ≤ ds.ledger.length →
        ds.rangeFault (ds.ledger.length - limit) ds.ledger.length = some m →
        getRecentJobs ds limit = ToolResult.mk ("Failed to get recent jobs: " ++ m)) := by
  refine ⟨fun hc => ⟨?_, ?_, ?_⟩, fun hb => ?_, fun hc hlen hr => ?_⟩
  · simp [getJobCount, getJobCountBody, DataSource.getJobsLength, hc]
  · simp [searchJobs, searchJobsBody, DataSource.getJobsLength, hc]
  · simp [getRecentJobs, getRecentJobsBody, DataSource.getJobsLength, hc]
  · simp [getJobDetails, getJobDetailsBody, DataSource.getJob, hb]
  · have hne : (ds.ledger.length == 0) = false := by
      simp only [beq_eq_false_iff_ne, ne_eq]
      omega
    simp [getRecentJobs, getRecentJobsBody, DataSource.getJobsLength, hc, hne,
      DataSource.getJobs, hr]

/-- C7: with the ledger total 0 (and the count readable), both `search_jobs`
and `get_recent_jobs` return the defined no-jobs message as a normal text
result, not an error and not a silently rendered empty list. -/
theorem totalZero_message (ds : DataSource) (st cat : Option String) (limit : Nat)
    (hc : ds.countFault = none) (h0 : ds.ledger.length = 0) :
    searchJobs ds st cat limit = ToolResult.mk ("No jobs found on the marketplace.")
    ∧ getRecentJobs ds limit = ToolResult.mk ("No jobs found on the marketplace.") := by
  have hz : (ds.ledger.length == 0) = true := by simp [h0]
  constructor
  · simp [searchJobs, searchJobsBody, DataSource.getJobsLength, hc, searchJobsOkText, hz]
  · simp [getRecentJobs, getRecentJobsBody, DataSource.getJobsLength, hc, hz]

/-- C7 witness at the empty ledger. -/
theorem totalZero_message_witness :
    searchJobs dsEmpty (some ("open")) (some ("video")) 10
        = ToolResult.mk ("No jobs found on the marketplace.")
    ∧ getRecentJobs dsEmpty 10 = ToolResult.mk ("No jobs found on the marketplace.") :=
  totalZero_message dsEmpty (some ("open")) (some ("video")) 10 (by decide) (by decide)

/-- C5: the status filter of `search_jobs` (over the schema's admissible
status arguments) keeps a job iff the argument is absent or `all`, or the
job's status field case-insensitively equals the filter value; a job whose
status field is absent never matches a concrete status filter. -/
theorem statusFilter_semantics (st : Option String) (jobs : List Job) (j : Job)
    (henum : st ∈ [none, some ("open"), some ("taken"), some ("completed"),
      some ("closed"), some ("all")])
    (hj : j ∈ jobs) :
    (j ∈ statusFilterStep st jobs ↔
      st = none ∨ st = some ("all")
      ∨ (∃ s js, st = some s ∧ j.status = some js ∧ jsToLower js = jsToLower s))
    ∧ (j.status = none → st ≠ none → st ≠ some ("all") →
        j ∉ statusFilterStep st jobs) := by
  have hconc : ∀ s : String, statusFilterActive (some s) = true →
      ((j ∈ statusFilterStep (some s) jobs ↔
        some s = none ∨ some s = some ("all")
        ∨ (∃ s2 js, some s = some s2 ∧ j.status = some js ∧ jsToLower js = jsToLower s2))
      ∧ (j.status = none → some s ≠ none → some s ≠ some ("all") →
          j ∉ statusFilterStep (some s) jobs)) := by
    intro s hact
    have hsne : s ≠ "all" := by
      intro hx
      subst hx
      simp [statusFilterActive] at hact
    constructor
    · rw [statusFilterStep, if_pos hact, List.mem_filter]
      cases hstat : j.status with
      | none => simp [statusPred, hstat, hj, hsne]
      | some js => simp [statusPred, hstat, hj, beq_iff_eq, hsne]
    · intro hnone _ _
      rw [statusFilterStep, if_pos hact, List.mem_filter]
      simp [statusPred, hnone]
  simp only [List.mem_cons, List.not_mem_nil, or_false] at henum
  rcases henum with rfl | rfl | rfl | rfl | rfl | rfl
  · constructor
    · simp [statusFilterStep, statusFilterActive, hj]
    · intro _ hne _
      exact absurd rfl hne
  · exact hconc ("open") (by decide)
  · exact hconc ("taken") (by decide)
  · exact hconc ("completed") (by decide)
  · exact hconc ("closed") (by decide)
  · constructor
    · have hina : statusFilterActive (some ("all")) = false := by decide
      simp [statusFilterStep, hina, hj]
    · intro _ _ hne
      exact absurd rfl hne

/-- C5 witness: the open job of the five-job ledger against the filter
`open`. -/
theorem statusFilter_semantics_witness :
    ((statusJob 0 ("open")) ∈ statusFilterStep (some ("open")) ds5.ledger ↔
      some ("open") = none ∨ some ("open") = some ("all")
      ∨ (∃ s js, some ("open") = some s ∧ (statusJob 0 ("open")).status = some js
          ∧ jsToLower js = jsToLower s))
    ∧ ((statusJob 0 ("open")).status = none → some ("open") ≠ none →
        some ("open") ≠ some ("all") →
        (statusJob 0 ("open")) ∉ statusFilterStep (some ("open")) ds5.ledger) :=
  statusFilter_semantics (some ("open")) ds5.ledger (statusJob 0 ("open"))
    (by decide) (by decide)

/-- C9 counterexample: at a five-job ledger, `get_job_count` renders "...jobs
on the EACC marketplace.", not the claimed exact text "...jobs on the
marketplace." -/
theorem getJobCount_text_counterexample :
    getJobCount ds5 ≠ ToolResult.mk ("There are currently 5 jobs on the marketplace.")
    ∧ getJobCount ds5
        = ToolResult.mk ("There are currently 5 jobs on the EACC marketplace.") := by
  decide

/-- C9 (amended): for ledger total N (with the count call succeeding),
`get_job_count` returns exactly the text "There are currently <N> jobs on the
EACC marketplace." with N the total reported by the DataSource. -/
theorem getJobCount_text (ds : DataSource) (hc : ds.countFault = none) :
    getJobCount ds = ToolResult.mk
      ("There are currently " ++ toString ds.ledger.length
        ++ " jobs on the EACC marketplace.") := by
  simp [getJobCount, getJobCountBody, DataSource.getJobsLength, hc]

/-- C9 witness at the five-job ledger. -/
theorem getJobCount_text_witness :
    getJobCount ds5 = ToolResult.mk
      ("There are currently " ++ toString ds5.ledger.length
        ++ " jobs on the EACC marketplace.") :=
  getJobCount_text ds5 (by decide)

/-- C8: every rendered result line is 1-based numbered and carries the job's
identifying id and its title (placeholder `Untitled` when absent); each
optional field of a line (status and payment for `search_jobs`, time for
`get_recent_jobs`) is omitted entirely when absent — nothing is rendered
blank — and appears as its own ` - `-separated segment when present. -/
theorem resultLine_format (k : Nat) (j : Job) :
    (searchJobLine k j
        = toString (k + 1) ++ ". Job #" ++ toString j.id ++ ": "
          ++ titleOrUntitled j.title ++ statusSegment j.status
          ++ paymentSegment j.paymentAmount)
    ∧ (j.title = none → ∃ rest, searchJobLine k j
        = toString (k + 1) ++ ". Job #" ++ toString j.id ++ ": "
          ++ ("Untitled" ++ rest))
    ∧ (j.status = none ∧ j.paymentAmount = none → searchJobLine k j
        = toString (k + 1) ++ ". Job #" ++ toString j.id ++ ": "
          ++ titleOrUntitled j.title)
    ∧ (j.status = none → searchJobLine k j
        = toString (k + 1) ++ ". Job #" ++ toString j.id ++ ": "
          ++ titleOrUntitled j.title ++ paymentSegment j.paymentAmount)
    ∧ (j.paymentAmount = none → searchJobLine k j
        = toString (k + 1) ++ ". Job #" ++ toString j.id ++ ": "
          ++ titleOrUntitled j.title ++ statusSegment j.status)
    ∧ (∀ s, j.status = some s → s ≠ "" →
        ∃ a b, searchJobLine k j = a ++ (" - " ++ s) ++ b)
    ∧ (recentJobLine k j
        = toString (k + 1) ++ ". Escrow ID " ++ escrowText j.escrowId ++ ": "
          ++ titleOrUntitled j.title ++ timeSegment j.timestamp)
    ∧ (j.title = none → ∃ rest, recentJobLine k j
        = toString (k + 1) ++ ". Escrow ID " ++ escrowText j.escrowId ++ ": "
          ++ ("Untitled" ++ rest))
    ∧ (j.timestamp = none → recentJobLine k j
        = toString (k + 1) ++ ". Escrow ID " ++ escrowText j.escrowId ++ ": "
          ++ titleOrUntitled j.title) := by
  refine ⟨rfl, ?_, ?_, ?_, ?_, ?_, rfl, ?_, ?_⟩
  · intro ht
    refine ⟨statusSegment j.status ++ paymentSegment j.paymentAmount, ?_⟩
    simp only [searchJobLine, ht, titleOrUntitled, String.append_assoc]
  · rintro ⟨h1, h2⟩
    simp [searchJobLine, h1, h2, statusSegment, paymentSegment, String.append_empty]
  · intro h1
    simp [searchJobLine, h1, statusSegment, String.append_empty]
  · intro h2
    simp [searchJobLine, h2, paymentSegment, String.append_empty]
  · intro s hs hne
    refine ⟨toString (k + 1) ++ ". Job #" ++ toString j.id ++ ": "
      ++ titleOrUntitled j.title, paymentSegment j.paymentAmount, ?_⟩
    have hb : (s == "") = false := beq_eq_false_iff_ne.mpr hne
    simp [searchJobLine, statusSegment, hs, hb, String.append_assoc]
  · intro ht
    refine ⟨timeSegment j.timestamp, ?_⟩
    simp only [recentJobLine, ht, titleOrUntitled, String.append_assoc]
  · intro h1
    simp [recentJobLine, h1, timeSegment, String.append_empty]

end EaccMcp
